import Mathlib

/-!
# Verification of `generate_reviews.py`

A shallow embedding, in Lean 4, of the review-generation script: the
AWS-SigV4-style request signing (SHA-256 and HMAC implemented over byte
lists), the slugify / retry / parsing utilities, the review-page renderer,
the image downloader and the homepage updater, each translated from the
Python source, together with theorems settling the specification's claims
about them.
-/

set_option maxRecDepth 10000

namespace SHA256

/-- Truncate to a 32-bit word (`% 2^32`). -/
def w32 (n : Nat) : Nat := n % 4294967296

/-- Rotate a 32-bit word right by `n` bits. -/
def rotr (n x : Nat) : Nat := w32 ((x >>> n) ||| (x <<< (32 - n)))

/-- Logical shift right. -/
def shr (n x : Nat) : Nat := x >>> n

/-- Bitwise complement on a 32-bit word. -/
def bnot32 (x : Nat) : Nat := x ^^^ 4294967295

def ch (x y z : Nat) : Nat := (x &&& y) ^^^ (bnot32 x &&& z)

def maj (x y z : Nat) : Nat := (x &&& y) ^^^ (x &&& z) ^^^ (y &&& z)

def bigSigma0 (x : Nat) : Nat := rotr 2 x ^^^ rotr 13 x ^^^ rotr 22 x

def bigSigma1 (x : Nat) : Nat := rotr 6 x ^^^ rotr 11 x ^^^ rotr 25 x

def smallSigma0 (x : Nat) : Nat := rotr 7 x ^^^ rotr 18 x ^^^ shr 3 x

def smallSigma1 (x : Nat) : Nat := rotr 17 x ^^^ rotr 19 x ^^^ shr 10 x

/-- The 64 SHA-256 round constants (FIPS 180-4), in decimal. -/
def K : List Nat :=
  [1116352408, 1899447441, 3049323471, 3921009573, 961987163,
   1508970993, 2453635748, 2870763221, 3624381080, 310598401,
   607225278, 1426881987, 1925078388, 2162078206, 2614888103,
   3248222580, 3835390401, 4022224774, 264347078, 604807628,
   770255983, 1249150122, 1555081692, 1996064986, 2554220882,
   2821834349, 2952996808, 3210313671, 3336571891, 3584528711,
   113926993, 338241895, 666307205, 773529912, 1294757372,
   1396182291, 1695183700, 1986661051, 2177026350, 2456956037,
   2730485921, 2820302411, 3259730800, 3345764771, 3516065817,
   3600352804, 4094571909, 275423344, 430227734, 506948616,
   659060556, 883997877, 958139571, 1322822218, 1537002063,
   1747873779, 1955562222, 2024104815, 2227730452, 2361852424,
   2428436474, 2756734187, 3204031479, 3329325298]

/-- The SHA-256 initial hash value (FIPS 180-4), in decimal. -/
def H0 : List Nat :=
  [1779033703, 3144134277, 1013904242, 2773480762,
   1359893119, 2600822924, 528734635, 1541459225]

/-- `k` bytes of `n`, most significant byte first. -/
def toBytesBE : Nat → Nat → List Nat
  | 0, _ => []
  | k + 1, n => toBytesBE k (n / 256) ++ [n % 256]

/-- SHA-256 padding: a 0x80 byte, zeros to 56 mod 64, then the bit length
as an 8-byte big-endian integer. -/
def padMessage (msg : List Nat) : List Nat :=
  msg ++ [0x80] ++ List.replicate ((119 - msg.length % 64) % 64) 0 ++ toBytesBE 8 (msg.length * 8)

/-- Split a byte list into 64-byte blocks (fuel-indexed so that it reduces;
each step consumes at least one byte, so `bs.length` fuel is enough). -/
def toBlocksAux : Nat → List Nat → List (List Nat)
  | 0, _ => []
  | _, [] => []
  | fuel + 1, bs => bs.take 64 :: toBlocksAux fuel (bs.drop 64)

/-- Split a byte list into 64-byte blocks. -/
def toBlocks (bs : List Nat) : List (List Nat) := toBlocksAux bs.length bs

/-- Group bytes into 32-bit words, big-endian. -/
def bytesToWords : List Nat → List Nat
  | b0 :: b1 :: b2 :: b3 :: rest =>
      (((b0 * 256 + b1) * 256 + b2) * 256 + b3) :: bytesToWords rest
  | _ => []

/-- Append the next message-schedule word. -/
def scheduleStep (ws : List Nat) : List Nat :=
  let n := ws.length
  ws ++ [w32 (smallSigma1 (ws.getD (n - 2) 0) + ws.getD (n - 7) 0 +
              smallSigma0 (ws.getD (n - 15) 0) + ws.getD (n - 16) 0)]

/-- Extend the 16 block words to the 64-entry message schedule. -/
def schedule (blockWords : List Nat) : List Nat :=
  (List.range 48).foldl (fun ws _ => scheduleStep ws) blockWords

/-- The eight 32-bit working variables of the compression function. -/
structure St where
  a : Nat
  b : Nat
  c : Nat
  d : Nat
  e : Nat
  f : Nat
  g : Nat
  h : Nat

/-- One SHA-256 compression round. -/
def round (s : St) (k w : Nat) : St :=
  let t1 := w32 (s.h + bigSigma1 s.e + ch s.e s.f s.g + k + w)
  let t2 := w32 (bigSigma0 s.a + maj s.a s.b s.c)
  ⟨w32 (t1 + t2), s.a, s.b, s.c, w32 (s.d + t1), s.e, s.f, s.g⟩

/-- Compress one 64-byte block into the chaining value. -/
def compress (hs : List Nat) (block : List Nat) : List Nat :=
  let ws := schedule (bytesToWords block)
  let init : St := ⟨hs.getD 0 0, hs.getD 1 0, hs.getD 2 0, hs.getD 3 0,
                    hs.getD 4 0, hs.getD 5 0, hs.getD 6 0, hs.getD 7 0⟩
  let fin := (List.zip K ws).foldl (fun s kw => round s kw.1 kw.2) init
  [w32 (init.a + fin.a), w32 (init.b + fin.b), w32 (init.c + fin.c), w32 (init.d + fin.d),
   w32 (init.e + fin.e), w32 (init.f + fin.f), w32 (init.g + fin.g), w32 (init.h + fin.h)]

/-- SHA-256 of a byte list, as a 32-byte list. -/
def sha256 (msg : List Nat) : List Nat :=
  let hs := (toBlocks (padMessage msg)).foldl compress H0
  hs.foldr (fun h acc => toBytesBE 4 h ++ acc) []

/-- Lowercase hex digit for a value below 16. -/
def hexDigit (n : Nat) : Char := if n < 10 then Char.ofNat (48 + n) else Char.ofNat (87 + n)

def byteToHex (b : Nat) : List Char := [hexDigit (b / 16), hexDigit (b % 16)]

/-- Lowercase hex rendering of a byte list (Python `hexdigest`). -/
def bytesToHex (bs : List Nat) : String := ⟨bs.foldr (fun b acc => byteToHex b ++ acc) []⟩

/-- HMAC-SHA256 with byte-list key and message. -/
def hmacSha256 (key msg : List Nat) : List Nat :=
  let k0 := if key.length > 64 then sha256 key else key
  let kPad := k0 ++ List.replicate (64 - k0.length) 0
  let ipad := kPad.map (fun b => b ^^^ 0x36)
  let opad := kPad.map (fun b => b ^^^ 0x5c)
  sha256 (opad ++ sha256 (ipad ++ msg))

/-- UTF-8 encoding of one character. -/
def utf8Char (c : Char) : List Nat :=
  let n := c.toNat
  if n < 0x80 then [n]
  else if n < 0x800 then [0xc0 ||| (n >>> 6), 0x80 ||| (n &&& 0x3f)]
  else if n < 0x10000 then
    [0xe0 ||| (n >>> 12), 0x80 ||| ((n >>> 6) &&& 0x3f), 0x80 ||| (n &&& 0x3f)]
  else
    [0xf0 ||| (n >>> 18), 0x80 ||| ((n >>> 12) &&& 0x3f),
     0x80 ||| ((n >>> 6) &&& 0x3f), 0x80 ||| (n &&& 0x3f)]

/-- UTF-8 encoding of a string (Python `str.encode("utf-8")`). -/
def utf8 (s : String) : List Nat := s.data.foldr (fun c acc => utf8Char c ++ acc) []

end SHA256

namespace GenerateReviews

open SHA256

/-- Python `"\n".join(...)`. -/
def joinNewline : List String → String
  | [] => ""
  | [s] => s
  | s :: rest => s ++ "\n" ++ joinNewline rest

/-- `_sign(key, msg)` from generate_reviews.py:
`hmac.new(key, msg.encode("utf-8"), hashlib.sha256).digest()`. -/
def sign (key : List Nat) (msg : String) : List Nat := hmacSha256 key (utf8 msg)

/-- `_get_signature_key` from generate_reviews.py. -/
def get_signature_key (secret_key datestamp region service : String) : List Nat :=
  let k_date := sign (utf8 ("AWS4" ++ secret_key)) datestamp
  let k_region := sign k_date region
  let k_service := sign k_region service
  let k_signing := sign k_service "aws4_request"
  k_signing

def PA_HOST : String := "webservices.amazon.com"

def PA_REGION : String := "us-east-1"

def PA_SERVICE : String := "ProductAdvertisingAPI"

/-- `hashlib.sha256(s.encode("utf-8")).hexdigest()`. -/
def sha256hex (s : String) : String := bytesToHex (sha256 (utf8 s))

/-- The `canonical_headers` string built in `pa_api_search_items`. -/
def canonical_headers (amz_date : String) : String :=
  "content-type:application/json\nhost:" ++ PA_HOST ++ "\nx-amz-date:" ++ amz_date ++ "\n"

/-- The `canonical_request` string built in `pa_api_search_items`:
method, URI, query string, headers, signed headers and payload hash
joined by newlines. -/
def canonical_request (amz_date payload_hash : String) : String :=
  joinNewline ["POST", "/paapi5/searchitems", "", canonical_headers amz_date,
               "content-type;host;x-amz-date", payload_hash]

/-- The `credential_scope` string built in `pa_api_search_items`. -/
def credential_scope (datestamp : String) : String :=
  datestamp ++ "/" ++ PA_REGION ++ "/" ++ PA_SERVICE ++ "/aws4_request"

/-- The `string_to_sign` built in `pa_api_search_items`. -/
def string_to_sign (amz_date datestamp payload_json : String) : String :=
  joinNewline ["AWS4-HMAC-SHA256", amz_date, credential_scope datestamp,
               sha256hex (canonical_request amz_date (sha256hex payload_json))]

/-- The request signature computed in `pa_api_search_items`:
`hmac.new(signing_key, string_to_sign.encode("utf-8"), hashlib.sha256).hexdigest()`. -/
def pa_signature (secret_key datestamp amz_date payload_json : String) : String :=
  let signing_key := get_signature_key secret_key datestamp PA_REGION PA_SERVICE
  bytesToHex (hmacSha256 signing_key (utf8 (string_to_sign amz_date datestamp payload_json)))

/-- The signing key as the specification describes it: four chained
HMAC-SHA256 applications, keyed first with the bytes of "AWS4" ++ secret
over the datestamp, then over the region, the service and "aws4_request". -/
def specSigningKey (secret_key datestamp : String) : List Nat :=
  hmacSha256
    (hmacSha256
      (hmacSha256
        (hmacSha256 (utf8 ("AWS4" ++ secret_key)) (utf8 datestamp))
        (utf8 PA_REGION))
      (utf8 PA_SERVICE))
    (utf8 "aws4_request")

/-- The string-to-sign as the specification describes it: the algorithm
name, the timestamp, the credential scope and the hex SHA-256 of the
canonical request, joined by newlines; the canonical request is the
method, URI, empty query string, canonical headers, signed-header list
and payload hash, joined by newlines. -/
def specStringToSign (amz_date datestamp payload_json : String) : String :=
  "AWS4-HMAC-SHA256" ++ "\n" ++ amz_date ++ "\n" ++
    (datestamp ++ "/" ++ PA_REGION ++ "/" ++ PA_SERVICE ++ "/aws4_request") ++ "\n" ++
    sha256hex ("POST" ++ "\n" ++ "/paapi5/searchitems" ++ "\n" ++ "" ++ "\n" ++
      canonical_headers amz_date ++ "\n" ++ "content-type;host;x-amz-date" ++ "\n" ++
      sha256hex payload_json)

/-- The observable outcome of one run of a `retryable`-wrapped function:
the returned-or-raised result, how many times the wrapped function was
called, and the sequence of back-off sleeps performed (in seconds). -/
structure RetryOutcome (ε α : Type) where
  result : Except ε α
  calls : Nat
  sleeps : List ℚ

/-- The `while True` loop of `retryable`'s `wrapper`, entered with the
counter `attempt`; `f k` is the outcome of the call made when the counter
equals `k`.  Mirrors: try return fn(); except: attempt += 1; if attempt >=
max_attempts: raise; sleep(backoff * 2 ** (attempt - 1)). -/
def retryAux (f : Nat → Except ε α) (max_attempts : Nat) (backoff : ℚ)
    (attempt : Nat) : RetryOutcome ε α :=
  match f attempt with
  | .ok a => ⟨.ok a, attempt + 1, []⟩
  | .error e =>
    if h : attempt + 1 ≥ max_attempts then ⟨.error e, attempt + 1, []⟩
    else
      let rest := retryAux f max_attempts backoff (attempt + 1)
      ⟨rest.result, rest.calls, backoff * 2 ^ (attempt + 1 - 1) :: rest.sleeps⟩
termination_by max_attempts - attempt
decreasing_by omega

/-- `retryable(max_attempts, backoff)` applied to a function whose k-th
call has outcome `f k`. -/
def retryable (max_attempts : Nat) (backoff : ℚ) (f : Nat → Except ε α) :
    RetryOutcome ε α :=
  retryAux f max_attempts backoff 0

/-- The process environment as seen through `os.getenv`. -/
structure Env where
  getenv : String → Option String

/-- Python truthiness of an `os.getenv` result: `None` and `""` are falsy. -/
def pyTruthy : Option String → Bool
  | none => false
  | some s => !s.isEmpty

/-- The module-level configuration record. -/
structure Config where
  groq_api_key : Option String
  pa_access_key : Option String
  pa_secret_key : Option String
  affiliate_tag : String
  deriving DecidableEq, Repr

/-- A filesystem side effect performed at startup. -/
inductive FsOp where
  | mkdir (path : String)
  deriving DecidableEq, Repr

/-- The module-level prologue of generate_reviews.py, in source order: read
the four environment variables, raise `ValueError` when
`not all([GROQ_API_KEY, PA_ACCESS_KEY, PA_SECRET_KEY])`, and only past
that check create the `reviews/` and `reviews/images/` directories (the
first filesystem writes; no network call happens at module level). -/
def startup (env : Env) : Except String (Config × List FsOp) :=
  let groq := env.getenv "GROQ_API_KEY"
  let pa_access := env.getenv "PA_ACCESS_KEY"
  let pa_secret := env.getenv "PA_SECRET_KEY"
  let affiliate := (env.getenv "AFFILIATE_TAG").getD "snapxacc-20"
  if pyTruthy groq && pyTruthy pa_access && pyTruthy pa_secret then
    .ok (⟨groq, pa_access, pa_secret, affiliate⟩,
         [.mkdir "reviews", .mkdir "reviews/images"])
  else
    .error "Missing required secrets: GROQ_API_KEY, PA_ACCESS_KEY, PA_SECRET_KEY"

/-- Python `\s` (ASCII range): space, tab, newline, carriage return,
vertical tab, form feed. -/
def pyIsSpace (c : Char) : Bool :=
  c == ' ' || c == '\t' || c == '\n' || c == '\r' || c == '\x0b' || c == '\x0c'

/-- Python regex `\w` (ASCII range): letters, digits and underscore. -/
def isWordChar (c : Char) : Bool := c.isAlphanum || c == '_'

/-- The character semantics `slugify` depends on: the regex engine's
Unicode-aware `\w` and `\s` classes, `str.isupper`, and (per character)
`str.lower`.  The script's behaviour on a given string is a function of
these observations, so `slugify` is modelled relative to them; full
Unicode tables are not re-encoded here. -/
structure PyCharSem where
  isWord : Char → Bool
  isSpace : Char → Bool
  isUpper : Char → Bool
  toLower : Char → Char

/-- The semantics restricted to ASCII, where the classes above coincide
with Python's: used to evaluate the model at concrete ASCII inputs. -/
def asciiSem : PyCharSem := ⟨isWordChar, pyIsSpace, Char.isUpper, Char.toLower⟩

/-- `re.sub(r"X+", repl, s)` for a character class `X`: each maximal run
of class characters becomes the single character `repl`.  The boolean
records whether we are inside a run. -/
def subRunsAux (p : Char → Bool) (repl : Char) : Bool → List Char → List Char
  | _, [] => []
  | inRun, c :: rest =>
    if p c then
      (if inRun then [] else [repl]) ++ subRunsAux p repl true rest
    else
      c :: subRunsAux p repl false rest

def subRuns (p : Char → Bool) (repl : Char) (cs : List Char) : List Char :=
  subRunsAux p repl false cs

/-- Python `s.strip("-")` on a character list. -/
def stripDashes (cs : List Char) : List Char :=
  ((cs.dropWhile (fun c => c == '-')).reverse.dropWhile (fun c => c == '-')).reverse

/-- `slugify(text, max_length)` from generate_reviews.py, relative to the
character semantics `sem`: lowercase, delete characters outside `\w`,
`\s` and `-`, turn whitespace runs into single dashes, collapse dash
runs, truncate to `max_length`, strip leading/trailing dashes. -/
def slugify (sem : PyCharSem) (text : String) (max_length : Nat) : String :=
  let cs := text.data.map sem.toLower
  let cs := cs.filter (fun c => sem.isWord c || sem.isSpace c || c == '-')
  let cs := subRuns sem.isSpace '-' cs
  let cs := subRuns (fun c => c == '-') '-' cs
  ⟨stripDashes (cs.take max_length)⟩

/-- The review filename built in `generate_review`:
`filename_base = slugify(title) or slugify(product_name)` followed by
`f"{filename_base[:80]}.html"`. -/
def output_filename (sem : PyCharSem) (title product_name : String) : String :=
  let filename_base := if slugify sem title 100 ≠ "" then slugify sem title 100
                       else slugify sem product_name 100
  (⟨filename_base.data.take 80⟩ : String) ++ ".html"

/-- Python `s.strip()` (whitespace strip). -/
def pyStrip (s : String) : String :=
  ⟨((s.data.dropWhile pyIsSpace).reverse.dropWhile pyIsSpace).reverse⟩

/-- Python `str.splitlines`: the text between line terminators
(`\n`, `\r`, `\r\n`), with no trailing empty line. -/
def splitlinesGo (cur : List Char) : List Char → List (List Char)
  | [] => [cur.reverse]
  | '\r' :: '\n' :: rest =>
    cur.reverse :: (if rest.isEmpty then [] else splitlinesGo [] rest)
  | '\r' :: rest =>
    cur.reverse :: (if rest.isEmpty then [] else splitlinesGo [] rest)
  | '\n' :: rest =>
    cur.reverse :: (if rest.isEmpty then [] else splitlinesGo [] rest)
  | c :: rest => splitlinesGo (c :: cur) rest

def splitlines (s : String) : List String :=
  match s.data with
  | [] => []
  | cs => (splitlinesGo [] cs).map fun l => ⟨l⟩

/-- `"|" in line`. -/
def containsBar (s : String) : Bool := s.data.any (fun c => c == '|')

/-- `line[0].isdigit() or line.startswith(("-", "•", "*"))` on a stripped,
non-empty line (`False` on the empty line, which is filtered earlier). -/
def startsBad (s : String) : Bool :=
  match s.data with
  | [] => false
  | c :: _ => c.isDigit || c == '-' || c == '•' || c == '*'

/-- `[p.strip() for p in line.split("|", 1)]`: the parts before and after
the first `|`, whitespace-stripped. -/
def splitFirstBar (s : String) : String × String :=
  (pyStrip ⟨s.data.takeWhile (fun c => c != '|')⟩,
   pyStrip ⟨(s.data.dropWhile (fun c => c != '|')).drop 1⟩)

/-- The accumulation loop of `get_trending_products`: strip each line,
skip lines that are empty or lack `|`, skip lines starting with a digit,
dash, bullet or asterisk, append the two stripped parts, and break once
`num` products are collected (the length check follows the append). -/
def parseLoop (num : Nat) (products : List (String × String)) :
    List String → List (String × String)
  | [] => products
  | l :: rest =>
    let line := pyStrip l
    if line == "" || !containsBar line then parseLoop num products rest
    else if startsBad line then parseLoop num products rest
    else
      let products' := products ++ [splitFirstBar line]
      if products'.length ≥ num then products' else parseLoop num products' rest

/-- The parsing stage of `get_trending_products`: run the loop over the
response's lines and raise when no product was collected. -/
def get_trending_products_parse (raw : String) (num : Nat) :
    Except String (List (String × String)) :=
  let products := parseLoop num [] (splitlines raw)
  if products.isEmpty then
    .error ("No products returned from GROQ. Raw response:\n" ++ raw)
  else
    .ok products

/-- A JSON value as `resp.json()` yields it. -/
inductive Json where
  | null
  | str (s : String)
  | num (n : Int)
  | bool (b : Bool)
  | arr (items : List Json)
  | obj (fields : List (String × Json))

/-- Python truthiness of a JSON value: `None`, `""`, `0`, `False`, `[]`
and the empty object are falsy. -/
def Json.truthy : Json → Bool
  | .null => false
  | .str s => !s.isEmpty
  | .num n => n != 0
  | .bool b => b
  | .arr l => !l.isEmpty
  | .obj l => !l.isEmpty

/-- `d.get(key, default)` on a value known to be dict-shaped (used only
where a preceding `.get` on the same receiver has already succeeded, or
where the receiver is an `isinstance(..., dict)`-guarded dict). -/
def Json.getD (j : Json) (key : String) (d : Json) : Json :=
  match j with
  | .obj fields =>
    match fields.find? (fun kv => kv.1 == key) with
    | some kv => kv.2
    | none => d
  | _ => d

/-- `x.get(key, default)` on an arbitrary value: a non-dict receiver
raises `AttributeError`, modelled as the error case. -/
def getE (j : Json) (key : String) (d : Json) : Except Unit Json :=
  match j with
  | .obj fields =>
    match fields.find? (fun kv => kv.1 == key) with
    | some kv => .ok kv.2
    | none => .ok d
  | _ => .error ()

/-- Python `a or b`: `a` when truthy, else `b` (returned as-is). -/
def jor (a b : Json) : Json := if a.truthy then a else b

/-- Python `str()` of a JSON value as the f-strings render it; scalar
values are exact, composite values are coarse (no claim depends on
them). -/
def jsonDisplay : Json → String
  | .str s => s
  | .num n => toString n
  | .bool b => if b then "True" else "False"
  | .null => "None"
  | .arr _ => "[...]"
  | .obj _ => "\x7b...\x7d"

def hexDigitUpper (n : Nat) : Char :=
  if n < 10 then Char.ofNat (48 + n) else Char.ofNat (55 + n)

/-- Bytes `urllib.parse.quote_plus` leaves unescaped: ASCII alphanumerics
and `-`, `.`, `_`, `~`. -/
def isUnreservedByte (b : Nat) : Bool :=
  (48 ≤ b && b ≤ 57) || (65 ≤ b && b ≤ 90) || (97 ≤ b && b ≤ 122) ||
    b == 45 || b == 46 || b == 95 || b == 126

def quotePlusByte (b : Nat) : List Char :=
  if b == 32 then ['+']
  else if isUnreservedByte b then [Char.ofNat b]
  else ['%', hexDigitUpper (b / 16), hexDigitUpper (b % 16)]

/-- `urllib.parse.quote_plus`: UTF-8 percent-encoding with space as `+`. -/
def quote_plus (s : String) : String :=
  ⟨(utf8 s).foldr (fun b acc => quotePlusByte b ++ acc) []⟩

/-- The fallback purchase link
`f"https://www.amazon.com/s?k={quote_plus(search_term)}&tag={AFFILIATE_TAG}"`. -/
def searchLink (search_term affiliate_tag : String) : String :=
  "https://www.amazon.com/s?k=" ++ quote_plus search_term ++ "&tag=" ++ affiliate_tag

def placeholder_url : String :=
  "https://via.placeholder.com/800x600/0d6efd/ffffff.png?text=No+Image"

/-- The `items` extraction of `generate_review` (lines 296-311, outside
any try/except): check `SearchResult.Items`, `ItemsResult.Items` and
`Items` lazily (a later `or` operand is evaluated only when the earlier
ones are falsy, so a malformed shape raises at the first `.get` on a
non-dict and propagates out of `generate_review`), default to a list,
then unwrap a dict via `Item`, `Items` or its values and select the first
element of a non-empty list, a dict itself, or `None`. -/
def itemsOfE (api : Json) : Except Unit (Option Json) := do
  let a1 ← getE api "SearchResult" (.obj [])
  let b1 ← getE a1 "Items" .null
  let items ←
    if b1.truthy then pure b1
    else do
      let a2 ← getE api "ItemsResult" (.obj [])
      let b2 ← getE a2 "Items" .null
      if b2.truthy then pure b2
      else do
        let c ← getE api "Items" .null
        if c.truthy then pure c else pure (Json.arr [])
  let items2 :=
    match items with
    | .obj fields =>
      jor (Json.getD (.obj fields) "Item" .null)
          (jor (Json.getD (.obj fields) "Items" .null) (.arr (fields.map Prod.snd)))
    | x => x
  match items2 with
  | .arr (x :: _) => pure (some x)
  | .obj f => pure (some (.obj f))
  | _ => pure none

/-- The title resolution chain inside the guarded parse block:
`item.get("ItemInfo", {}).get("Title", {}).get("DisplayValue") or
 ... .get("Title") or item.get("ASIN") or title`; a `.get` on a non-dict
raises (caught by the block's except, leaving the defaults). -/
def titleChainE (it : Json) (pname : String) : Except Unit Json := do
  let ii ← getE it "ItemInfo" (.obj [])
  let t ← getE ii "Title" (.obj [])
  let dv ← getE t "DisplayValue" .null
  if dv.truthy then pure dv
  else
    let tt ← getE t "Title" .null
    if tt.truthy then pure tt
    else
      let asin ← getE it "ASIN" .null
      if asin.truthy then pure asin
      else pure (.str pname)

/-- The purchase-link value `item.get("DetailPageURL") or direct_link`
(raise-free: it runs only after the title chain validated `item` as a
dict). -/
def linkJsonOf (it : Json) (search_term affiliate_tag : String) : Json :=
  jor (it.getD "DetailPageURL" .null)
      (.str (searchLink search_term affiliate_tag))

/-- `str` rendering of the resolved purchase link. -/
def resolvedLink (it : Json) (search_term affiliate_tag : String) : String :=
  jsonDisplay (linkJsonOf it search_term affiliate_tag)

/-- The image extraction inside the guarded parse block, with the source's
evaluation order: the whole candidate list is built before `any`, so an
exception at any `.get` on a non-dict discards every candidate (caught by
the block's except, leaving the image unset); the first variant's URLs
extend the list only when no primary candidate is truthy; the result is
`next((c for c in candidates if c), None)`. -/
def imageChainE (it : Json) : Except Unit (Option Json) := do
  let imgsRaw ← getE it "Images" (.obj [])
  let images := jor imgsRaw (.obj [])
  let primRaw ← getE images "Primary" (.obj [])
  let primary := jor primRaw (.obj [])
  let lg ← getE primary "Large" (.obj [])
  let c1 ← getE lg "URL" .null
  let c2 ← getE lg "AmazonHosted" .null
  let c3 ← getE lg "ImageUrl" .null
  let hr ← getE primary "HighRes" (.obj [])
  let c4 := match hr with
    | .obj f => Json.getD (.obj f) "URL" .null
    | _ => .null
  let md ← getE primary "Medium" (.obj [])
  let c5 ← getE md "URL" .null
  let sm ← getE primary "Small" (.obj [])
  let c6 ← getE sm "URL" .null
  let base := [c1, c2, c3, c4, c5, c6]
  if base.any Json.truthy then
    pure (base.find? Json.truthy)
  else do
    let vRaw ← getE images "Variants" .null
    let aRaw ← getE images "AlternateImages" .null
    let variants := jor vRaw (jor aRaw (.arr []))
    match variants with
    | .arr (v0 :: _) =>
      let v := jor v0 (.obj [])
      let vl ← getE v "Large" (.obj [])
      let c7 ← getE vl "URL" .null
      let vm ← getE v "Medium" (.obj [])
      let c8 ← getE vm "URL" .null
      pure ((base ++ [c7, c8]).find? Json.truthy)
    | _ => pure (base.find? Json.truthy)

/-- `s.startswith(p)`. -/
def strStartsWith (s p : String) : Bool := List.isPrefixOf p.data s.data

/-- An observable step of `main`'s product loop. -/
inductive MainEvent where
  | process (name term : String)
  | sleep (seconds : ℚ)
  deriving DecidableEq, Repr

/-- The `for name, term in products` loop of `main`: each iteration calls
`generate_review` (outcome given by the oracle `outcome`); on success the
result is appended and `time.sleep(1.2)` runs inside the same `try`; on
failure the `except` branch only prints, with no sleep.  Returns the event
trace and the collected `new_reviews`. -/
def mainLoop (outcome : String × String → Except Unit (String × String × String)) :
    List (String × String) → List MainEvent × List (String × String × String)
  | [] => ([], [])
  | p :: rest =>
    let r := mainLoop outcome rest
    match outcome p with
    | .ok v => (.process p.1 p.2 :: .sleep (6 / 5) :: r.1, v :: r.2)
    | .error _ => (.process p.1 p.2 :: r.1, r.2)

/-- `Path(name).suffix`: the extension of the final component — the text
from the last dot, provided that dot is neither the first nor the last
character. -/
def pathSuffix (name : String) : String :=
  let cs := name.data
  match ((List.range cs.length).filter (fun i => cs.getD i ' ' == '.')).getLast? with
  | none => ""
  | some i => if 0 < i ∧ i < cs.length - 1 then ⟨cs.drop i⟩ else ""

/-- Does `s` contain `sub` as a contiguous subsequence? -/
def containsSeq (sub : List Char) : List Char → Bool
  | [] => sub.isEmpty
  | c :: rest => List.isPrefixOf sub (c :: rest) || containsSeq sub rest

/-- `urlparse(url).path`: drop the fragment, then the query; when the URL
has a `scheme://netloc` part the path starts at the first slash after the
authority (empty when there is none); otherwise the remainder is the
path. -/
def urlPath (url : String) : List Char :=
  let noFrag := url.data.takeWhile (fun c => c != '#')
  let noQuery := noFrag.takeWhile (fun c => c != '?')
  if containsSeq [':', '/', '/'] noQuery then
    let afterScheme := ((noQuery.dropWhile (fun c => c != ':')).drop 3)
    afterScheme.dropWhile (fun c => c != '/')
  else
    noQuery

def splitOnSlashGo (cur : List Char) : List Char → List (List Char)
  | [] => [cur.reverse]
  | '/' :: rest => cur.reverse :: splitOnSlashGo [] rest
  | c :: rest => splitOnSlashGo (c :: cur) rest

def splitOnSlash (p : List Char) : List (List Char) := splitOnSlashGo [] p

/-- `Path(p).name`: the last non-empty, non-"." component of the path. -/
def pathName (p : List Char) : List Char :=
  match ((splitOnSlash p).filter (fun s => !s.isEmpty && s != ['.'])).getLast? with
  | some s => s
  | none => []

/-- `safe_filename_from_url` from generate_reviews.py. -/
def safe_filename_from_url (url fallback : String) : String :=
  let name0 := pathName (urlPath url)
  let name1 := if name0.isEmpty then fallback.data else name0
  let name2 := if name1.any (fun c => c == '.') then name1 else name1 ++ ['.', 'j', 'p', 'g']
  let name3 := name2.map (fun c => if isWordChar c || c == '.' || c == '-' then c else '-')
  ⟨name3.take 120⟩

/-- Substring test, Python `sub in s`. -/
def strContainsSub (sub s : String) : Bool := containsSeq sub.data s.data

/-- The response to `requests.get(stream=True)` as the downloader reads
it: the status code, `resp.headers.get("Content-Type", "")`, the bytes
`iter_content` delivers before it stops or raises, and whether the
iteration completed without raising. -/
structure HttpResp where
  status : Nat
  contentType : String
  body : List Nat
  streamOk : Bool

/-- The filename `download_image_to_reviews` chooses: extension from the
Content-Type header when recognised, else from the URL's name (or ".jpg");
appended only when the URL-derived name has no suffix. -/
def derivedFname (contentType url fallback : String) : String :=
  let ext := if strContainsSub "jpeg" contentType then ".jpg"
    else if strContainsSub "png" contentType then ".png"
    else if strContainsSub "gif" contentType then ".gif"
    else
      let parsed_name := safe_filename_from_url url fallback
      if pathSuffix parsed_name != "" then pathSuffix parsed_name else ".jpg"
  let fname := safe_filename_from_url url fallback
  if pathSuffix fname == "" then fname ++ ext else fname

/-- `download_image_to_reviews` from generate_reviews.py over an explicit
images directory `fs` (filename, contents) and a response oracle.  The
function catches every exception of its own body and returns `None`, so
its `retryable(max_attempts=2)` wrapper never observes a failure and the
single call's outcome is the wrapper's outcome. -/
def download_image (resp : Except Unit HttpResp) (fs : List (String × List Nat))
    (url fallback_basename : String) : Option String × List (String × List Nat) :=
  if url == "" then (none, fs)
  else
    match resp with
    | .error _ => (none, fs)
    | .ok r =>
      if r.status != 200 then (none, fs)
      else
        let fname := derivedFname r.contentType url fallback_basename
        if fs.any (fun e => e.1 == fname) then (some fname, fs)
        else
          -- the file is opened and the delivered chunks written; when
          -- `iter_content` raises mid-stream the with-block closes the
          -- partial file, the outer except catches, and None is returned
          -- with the newly created partial file left behind
          if r.streamOk then (some fname, (fname, r.body) :: fs)
          else (none, (fname, r.body) :: fs)

/-- `s.endswith(p)`. -/
def strEndsWith (s p : String) : Bool := List.isPrefixOf p.data.reverse s.data.reverse

/-- The oracles `generate_review` consults: the interpreter's character
semantics (for `slugify`), the affiliate tag, the PA-API call outcome,
the og:image/twitter:image result of the best-effort detail page scrape
(when that block runs), the image downloader, whether the placeholder
image ends up available locally, the Groq call outcome, and today's date
string. -/
structure ReviewEnv where
  sem : PyCharSem
  affiliate_tag : String
  pa : Except Unit Json
  scrape : Option String
  download : String → Option String
  placeholderOk : Bool
  groq : Except Unit String
  today : String

/-- The fixed fallback review body used when the Groq call fails. -/
def priceAnchor (direct_link : String) : String :=
  "<a href=\"" ++ direct_link ++
    "\" class=\"btn\" rel=\"nofollow\">Check Price on Amazon →</a>"

def fallbackReview (direct_link : String) : String :=
  "<h2>Why It's Trending</h2><p>A trending find for shoppers.</p>" ++
  "<h2>Pros & Cons</h2><ul><li>Pro: Great value</li><li>Con: Limited stock</li></ul>" ++
  "<h2>Features</h2><p>Basic features described.</p>" ++
  "<h2>Who It's For</h2><p>Anyone who wants convenience.</p>" ++
  "<h2>Verdict</h2><p>Solid pick for the money.</p>" ++
  "<p>" ++ priceAnchor direct_link ++ "</p>"

/-- The `<title>` element of the review page template. -/
def titleTag (title : String) : String :=
  "<title>" ++ title ++ " Review 2025 – SnapReviews</title>"

/-- The `<h1>` heading of the review page template. -/
def h1Tag (title : String) : String :=
  "<h1>" ++ title ++ " Review 2025</h1>"

/-- The review-page HTML template of `generate_review`, with its five
interpolation points (title three times, date, image source, content,
purchase link). -/
def pageHtml (title today review_image_src content direct_link : String) : String :=
  "<!doctype html>\n<html lang=\"en\">\n<head>\n  <meta charset=\"utf-8\" />\n  <meta name=\"viewport\" content=\"width=device-width,initial-scale=1\" />\n  " ++
  titleTag title ++
  "\n  <link rel=\"stylesheet\" href=\"../assets/style.css\" />\n</head>\n<body>\n  <div class=\"container\">\n    <header>\n      " ++
  h1Tag title ++
  "\n      <p>Published " ++ today ++
  "</p>\n    </header>\n    <main>\n      <img src=\"" ++ review_image_src ++
  "\" alt=\"" ++ title ++
  "\" style=\"width:100%;max-width:800px;border-radius:16px;margin:30px 0;box-shadow:0 8px 30px rgba(0,0,0,0.15);\" />\n      " ++
  content ++
  "\n      <p>" ++ priceAnchor direct_link ++
  "</p>\n    </main>\n    <footer>\n      <p>Affiliate link – may earn commission</p>\n    </footer>\n  </div>\n</body>\n</html>\n"

/-- What `generate_review` produces for one product: the written file's
name and HTML, and the values interpolated into it. -/
structure ReviewPage where
  filename : String
  title : String
  homepage_image : String
  review_image_src : String
  direct_link : String
  content : String
  html : String

/-- The scrape gate at line 359,
`if not image_url_taken_from_api and direct_link and
direct_link.startswith("http")` (outside any try/except): skipped when an
image was already found; on a string link the best-effort scrape result
is consulted when the link is non-empty and http-prefixed; a truthy
non-string link raises `AttributeError` at `.startswith`. -/
def scrape_gate (env : ReviewEnv) (linkJson : Json) (image_api : Option Json) :
    Except Unit (Option String) :=
  match image_api with
  | some c => .ok (some (jsonDisplay c))
  | none =>
    match linkJson with
    | .str dl =>
      .ok (if dl != "" && strStartsWith dl "http" then env.scrape else none)
    | j => if j.truthy then .error () else .ok none

/-- The tail of `generate_review` once title, link and API image are
resolved: evaluate the scrape gate, download the image or the placeholder,
generate the review copy (fixed fallback body on failure), build the
filename via `slugify` — which raises `AttributeError` on a non-string
title, so no page is produced — and render the page. -/
def renderPage (env : ReviewEnv) (product_name : String)
    (titleJson linkJson : Json) (image_api : Option Json) :
    Except Unit ReviewPage :=
  match scrape_gate env linkJson image_api with
  | .error _ => .error ()
  | .ok image_url =>
    match titleJson with
    | .str title =>
      let downloaded_fname :=
        match image_url with
        | some u => env.download u
        | none => if env.placeholderOk then some "placeholder-no-image.png" else none
      let review_image_src :=
        match downloaded_fname with
        | some f => "images/" ++ f
        | none => placeholder_url
      let homepage_image_src :=
        match downloaded_fname with
        | some f => "reviews/images/" ++ f
        | none => placeholder_url
      let direct_link := jsonDisplay linkJson
      let content :=
        match env.groq with
        | .ok c => c
        | .error _ => fallbackReview direct_link
      let filename := output_filename env.sem title product_name
      .ok ⟨filename, title, homepage_image_src, review_image_src, direct_link,
           content, pageHtml title env.today review_image_src content direct_link⟩
    | _ => .error ()

/-- `generate_review` from generate_reviews.py over the oracle
environment.  The result is `Except`: the items extraction is outside any
try/except, so a malformed response shape raises and no page is written;
likewise a non-string resolved title or a truthy non-string link raises
later (see `renderPage` and `scrape_gate`).  Inside the guarded parse
block a raise keeps the already-assigned values: an exception in the
title chain leaves title, link and image at their defaults; an exception
in the image chain keeps the resolved title and link and leaves the image
unset. -/
def generate_review (env : ReviewEnv) (product_name search_term : String) :
    Except Unit ReviewPage :=
  let api_result : Option Json := match env.pa with | .ok j => some j | .error _ => none
  let itemE : Except Unit (Option Json) :=
    match api_result with
    | some api => if api.truthy then itemsOfE api else .ok none
    | none => .ok none
  match itemE with
  | .error _ => .error ()
  | .ok item =>
    let direct_link0 := searchLink search_term env.affiliate_tag
    let parsed : Option Json :=
      match item with
      | some j => if j.truthy then some j else none
      | none => none
    match parsed with
    | none => renderPage env product_name (.str product_name)
        (.str direct_link0) none
    | some it =>
      match titleChainE it product_name with
      | .error _ => renderPage env product_name (.str product_name)
          (.str direct_link0) none
      | .ok tj =>
        match imageChainE it with
        | .error _ => renderPage env product_name tj
            (linkJsonOf it search_term env.affiliate_tag) none
        | .ok c => renderPage env product_name tj
            (linkJsonOf it search_term env.affiliate_tag) c

/-- A node of the homepage soup. -/
inductive Node where
  | text (s : String)
  | elem (tag : String) (attrs : List (String × String)) (children : List Node)

/-- The review card `update_homepage` builds for one
(filename, name, image) triple. -/
def card (filename name img : String) : Node :=
  .elem "div" [("class", "review-card")] [
    .elem "img" [("src", img), ("alt", name),
      ("style", "width:100%;height:400px;object-fit:cover;border-radius:16px;")] [],
    .elem "h2" [] [.text name],
    .elem "p" [] [.text "Honest review of this viral Amazon find"],
    .elem "a" [("href", "reviews/" ++ filename), ("class", "btn")]
      [.text "Read Full Review"]]

def Node.children : Node → List Node
  | .text _ => []
  | .elem _ _ cs => cs

/-- Is this node the `<div id="reviews">` grid? -/
def isReviewsDiv : Node → Bool
  | .elem t a _ => t == "div" && a.any (fun kv => kv.1 == "id" && kv.2 == "reviews")
  | .text _ => false

mutual

/-- Replace the children of the first (document-order) reviews div by `f`
of them; the boolean reports whether one was found (`soup.find`). -/
def updateNode (f : List Node → List Node) : Node → Node × Bool
  | .text s => (.text s, false)
  | .elem t a cs =>
    if isReviewsDiv (.elem t a cs) then (.elem t a (f cs), true)
    else
      let r := updateNodes f cs
      (.elem t a r.1, r.2)

def updateNodes (f : List Node → List Node) : List Node → List Node × Bool
  | [] => ([], false)
  | n :: rest =>
    let r := updateNode f n
    if r.2 then (r.1 :: rest, true)
    else
      let r2 := updateNodes f rest
      (n :: r2.1, r2.2)

end

mutual

/-- Does the subtree contain a reviews div? -/
def hasRevDiv : Node → Bool
  | .text _ => false
  | .elem t a cs => isReviewsDiv (.elem t a cs) || hasRevDivList cs

def hasRevDivList : List Node → Bool
  | [] => false
  | n :: rest => hasRevDiv n || hasRevDivList rest

end

/-- The homepage mutation of `update_homepage`:
`for filename, name, img in reversed(new_reviews): grid.insert(0, card)`. -/
def insertCards (new_reviews : List (String × String × String))
    (children : List Node) : List Node :=
  new_reviews.reverse.foldl (fun cs r => card r.1 r.2.1 r.2.2 :: cs) children

/-- `update_homepage` from generate_reviews.py: `none` models a missing
index.html (skipped); a document without a reviews grid is left as it is;
otherwise the first grid's children get the new cards. -/
def update_homepage (homepage : Option Node)
    (new_reviews : List (String × String × String)) : Option Node :=
  match homepage with
  | none => none
  | some doc =>
    let r := updateNode (insertCards new_reviews) doc
    if r.2 then some r.1 else some doc

mutual

/-- The specification of the homepage mutation: `doc'` is `doc` with
exactly the first (document-order) reviews div's children replaced by `f`
of them and everything else identical. -/
inductive UpdatedFirst (f : List Node → List Node) : Node → Node → Prop where
  | here (t : String) (a : List (String × String)) (cs : List Node) :
      isReviewsDiv (.elem t a cs) = true →
      UpdatedFirst f (.elem t a cs) (.elem t a (f cs))
  | deeper (t : String) (a : List (String × String)) (cs cs' : List Node) :
      isReviewsDiv (.elem t a cs) = false →
      UpdatedFirstList f cs cs' →
      UpdatedFirst f (.elem t a cs) (.elem t a cs')

/-- Pointwise version of `UpdatedFirst` over sibling lists: the first
sibling containing a reviews div is updated, all others are untouched. -/
inductive UpdatedFirstList (f : List Node → List Node) :
    List Node → List Node → Prop where
  | head (n n' : Node) (rest : List Node) :
      UpdatedFirst f n n' → UpdatedFirstList f (n :: rest) (n' :: rest)
  | tail (n : Node) (rest rest' : List Node) :
      hasRevDiv n = false → UpdatedFirstList f rest rest' →
      UpdatedFirstList f (n :: rest) (n :: rest')

end

/-- A stripped line qualifies when it is non-empty, contains `|` and does
not begin with a digit, dash, bullet or asterisk. -/
def qualifies (line : String) : Bool :=
  !(line == "" || !containsBar line) && !startsBad line

/-- The qualifying lines of the raw response, as the specification
describes them, each split at its first `|` into two stripped parts. -/
def specParsed (raw : String) : List (String × String) :=
  (((splitlines raw).map pyStrip).filter qualifies).map splitFirstBar

/-- The exponential back-off schedule: `len` sleeps starting at
`b * 2 ^ start`, doubling each time. -/
def expSleeps (b : ℚ) (start len : Nat) : List ℚ :=
  (List.range len).map fun i => b * 2 ^ (start + i)

/-- The oracle environment of the C2 counterexample: the PA-API call
fails, but the best-effort scrape of the fallback search link yields an
image which downloads successfully. -/
def envScraped : ReviewEnv :=
  ⟨asciiSem, "snapxacc-20", .error (), some "http://example.com/pic.jpg",
   fun u => if u == "http://example.com/pic.jpg" then some "pic.jpg" else none,
   true, .ok "BODY", "2025-12-01"⟩

/-- An environment where every outbound call fails. -/
def envAllFail : ReviewEnv :=
  ⟨asciiSem, "snapxacc-20", .error (), none, fun _ => none, true, .error (),
   "2025-12-01"⟩

/-- The item, response and environment of the C7 witness. -/
def item7 : Json :=
  .obj [("ItemInfo", .obj [("Title", .obj [("DisplayValue", .str "Great Thing")])]),
        ("DetailPageURL", .str "https://amazon.com/dp/B01")]

def api7 : Json := .obj [("SearchResult", .obj [("Items", .arr [item7])])]

def env7 : ReviewEnv :=
  ⟨asciiSem, "snapxacc-20", .ok api7, none, fun _ => some "g.jpg", true,
   .ok "BODY", "2025-12-01"⟩

/-- A homepage with one reviews grid holding one old child. -/
def doc10 : Node :=
  .elem "html" [] [.elem "body" [] [.elem "div" [("id", "reviews")] [.text "old"]]]

/-- `doc10` after prepending the cards of two new reviews. -/
def doc10' : Node :=
  .elem "html" [] [.elem "body" [] [.elem "div" [("id", "reviews")]
    [card "f1.html" "N1" "i1", card "f2.html" "N2" "i2", .text "old"]]]

end GenerateReviews

namespace Claims

open SHA256 GenerateReviews

/-- Sanity check of the SHA-256 model against the NIST test vector for "abc". -/
theorem sha256_abc_vector :
    bytesToHex (sha256 (utf8 "abc")) =
      "ba7816bf8f01cfea414140de5dae2223b00361a396177a9cb410ff61f20015ad" := by rfl

theorem expSleeps_succ (b : ℚ) (start len : Nat) :
    expSleeps b start (len + 1) = b * 2 ^ start :: expSleeps b (start + 1) len := by
  unfold expSleeps
  rw [List.range_succ_eq_map, List.map_cons, List.map_map]
  congr 1
  apply List.map_congr_left
  intro a ha
  simp only [Function.comp_apply]
  congr 2
  omega

theorem retryAux_calls_le (fuel : Nat) (f : Nat → Except ε α) (max_attempts : Nat)
    (b : ℚ) (attempt : Nat) (hfuel : max_attempts - attempt ≤ fuel)
    (hlt : attempt < max_attempts) :
    (retryAux f max_attempts b attempt).calls ≤ max_attempts := by
  induction fuel generalizing attempt with
  | zero => omega
  | succ n ih =>
    rw [retryAux]
    cases f attempt with
    | ok a => simpa using hlt
    | error e =>
      simp only
      split
      · simpa using hlt
      · next h =>
        exact ih (attempt + 1) (by omega) (by omega)

theorem retryAux_all_fail (fuel : Nat) (f : Nat → Except ε α) (max_attempts : Nat)
    (b : ℚ) (e : Nat → ε) (attempt : Nat) (hfuel : max_attempts - attempt ≤ fuel)
    (hlt : attempt < max_attempts)
    (hf : ∀ k, attempt ≤ k → k < max_attempts → f k = .error (e k)) :
    retryAux f max_attempts b attempt =
      ⟨.error (e (max_attempts - 1)), max_attempts,
        expSleeps b attempt (max_attempts - 1 - attempt)⟩ := by
  induction fuel generalizing attempt with
  | zero => omega
  | succ n ih =>
    rw [retryAux, hf attempt le_rfl hlt]
    simp only
    split
    · next h =>
      have : attempt = max_attempts - 1 := by omega
      subst this
      simp [expSleeps, show max_attempts - 1 - (max_attempts - 1) = 0 by omega]
      omega
    · next h =>
      rw [ih (attempt + 1) (by omega) (by omega)
        (fun k hk1 hk2 => hf k (by omega) hk2)]
      have hrange : max_attempts - 1 - attempt = (max_attempts - 1 - (attempt + 1)) + 1 := by
        omega
      rw [hrange, expSleeps_succ]
      simp

theorem retryAux_success (fuel : Nat) (f : Nat → Except ε α) (max_attempts : Nat)
    (b : ℚ) (a : α) (j attempt : Nat) (hfuel : max_attempts - attempt ≤ fuel)
    (hja : attempt ≤ j) (hj : j < max_attempts) (hok : f j = .ok a)
    (hf : ∀ k, attempt ≤ k → k < j → ∃ er, f k = .error er) :
    retryAux f max_attempts b attempt =
      ⟨.ok a, j + 1, expSleeps b attempt (j - attempt)⟩ := by
  induction fuel generalizing attempt with
  | zero => omega
  | succ n ih =>
    rcases Nat.eq_or_lt_of_le hja with heq | hltj
    · subst heq
      rw [retryAux, hok]
      simp [expSleeps]
    · obtain ⟨er, her⟩ := hf attempt le_rfl hltj
      rw [retryAux, her]
      simp only
      split
      · next h => omega
      · next h =>
        rw [ih (attempt + 1) (by omega) (by omega)
          (fun k hk1 hk2 => hf k (by omega) hk2)]
        have hrange : j - attempt = (j - (attempt + 1)) + 1 := by omega
        rw [hrange, expSleeps_succ]
        simp

/-- C3: a `retryable`-wrapped call is attempted at most `max_attempts`
times; when all allowed attempts raise, the wrapper sleeps
`backoff * 2 ^ (attempt - 1)` between consecutive attempts and the last
exception propagates; when attempt `j` succeeds after `j` failures, its
result is returned unchanged after exactly the `j` back-off sleeps. -/
theorem C3_retryable (f : Nat → Except ε α) (max_attempts : Nat) (backoff : ℚ)
    (hmax : 1 ≤ max_attempts) :
    (retryable max_attempts backoff f).calls ≤ max_attempts
    ∧ (∀ e : Nat → ε, (∀ k, k < max_attempts → f k = .error (e k)) →
        retryable max_attempts backoff f =
          ⟨.error (e (max_attempts - 1)), max_attempts,
            expSleeps backoff 0 (max_attempts - 1)⟩)
    ∧ (∀ a j, j < max_attempts → f j = .ok a →
        (∀ k, k < j → ∃ er, f k = .error er) →
        retryable max_attempts backoff f =
          ⟨.ok a, j + 1, expSleeps backoff 0 j⟩) := by
  refine ⟨?_, ?_, ?_⟩
  · exact retryAux_calls_le max_attempts f max_attempts backoff 0 (by omega) (by omega)
  · intro e he
    have := retryAux_all_fail max_attempts f max_attempts backoff e 0 (by omega)
      (by omega) (fun k _ hk => he k hk)
    simpa [retryable] using this
  · intro a j hj hok hf
    have := retryAux_success max_attempts f max_attempts backoff a j 0 (by omega)
      (by omega) hj hok (fun k _ hk => hf k hk)
    simpa [retryable] using this

/-- A concrete instantiation of C3: with `max_attempts = 3`, a function
failing on its first two calls and succeeding on the third is called three
times, sleeps 1 and 2 seconds, and returns the successful value. -/
theorem C3_retryable_witness :
    (1 ≤ 3 : Prop)
    ∧ retryable 3 1 (fun k => if k < 2 then Except.error (37 : Nat) else Except.ok (42 : Nat)) =
        ⟨.ok 42, 3, expSleeps 1 0 2⟩ := by
  refine ⟨by omega, ?_⟩
  have h := (C3_retryable (ε := Nat) (α := Nat)
    (fun k => if k < 2 then Except.error 37 else Except.ok 42) 3 1 (by omega)).2.2
  exact h 42 2 (by omega) (by simp) (fun k hk => ⟨37, by simp [hk]⟩)

/-- C4: with any of the three required credentials absent from the
environment the module prologue raises before any filesystem write (the
error outcome carries no filesystem operations); the affiliate tag is not
required and defaults to "snapxacc-20" when absent. -/
theorem C4_missing_credentials (env : Env) :
    ((env.getenv "GROQ_API_KEY" = none ∨ env.getenv "PA_ACCESS_KEY" = none ∨
        env.getenv "PA_SECRET_KEY" = none) →
      startup env =
        .error "Missing required secrets: GROQ_API_KEY, PA_ACCESS_KEY, PA_SECRET_KEY")
    ∧ (∀ cfg ops, env.getenv "AFFILIATE_TAG" = none →
        startup env = .ok (cfg, ops) → cfg.affiliate_tag = "snapxacc-20") := by
  constructor
  · intro h
    rcases h with h | h | h <;> simp [startup, h, pyTruthy]
  · intro cfg ops htag hok
    simp only [startup, htag, Option.getD] at hok
    split at hok
    · simp only [Except.ok.injEq, Prod.mk.injEq] at hok
      rw [← hok.1]
    · cases hok

/-- A concrete instantiation of C4: an empty environment aborts with the
`ValueError` message, and an environment providing only the three
credentials yields the default affiliate tag. -/
theorem C4_missing_credentials_witness :
    startup ⟨fun _ => none⟩ =
      .error "Missing required secrets: GROQ_API_KEY, PA_ACCESS_KEY, PA_SECRET_KEY"
    ∧ (Config.mk (some "x") (some "x") (some "x") "snapxacc-20").affiliate_tag =
        "snapxacc-20" := by
  constructor
  · exact (C4_missing_credentials ⟨fun _ => none⟩).1 (Or.inl rfl)
  · exact (C4_missing_credentials
      ⟨fun k => if k = "AFFILIATE_TAG" then none else some "x"⟩).2
      (Config.mk (some "x") (some "x") (some "x") "snapxacc-20")
      [.mkdir "reviews", .mkdir "reviews/images"] rfl rfl

theorem parseLoop_eq (num : Nat) :
    ∀ (lines : List String) (acc : List (String × String)), acc.length < num →
      parseLoop num acc lines =
        (acc ++ ((lines.map pyStrip).filter qualifies).map splitFirstBar).take num := by
  intro lines
  induction lines with
  | nil =>
    intro acc hacc
    simp [parseLoop, List.take_of_length_le (Nat.le_of_lt hacc)]
  | cons l rest ih =>
    intro acc hacc
    rw [parseLoop]
    simp only [List.map_cons, List.filter_cons]
    by_cases h1 : (pyStrip l == "" || !containsBar (pyStrip l)) = true
    · have hq : qualifies (pyStrip l) = false := by simp [qualifies, h1]
      rw [if_pos h1, hq]
      simpa using ih acc hacc
    · by_cases h2 : startsBad (pyStrip l) = true
      · have hq : qualifies (pyStrip l) = false := by simp [qualifies, h2]
        rw [if_neg h1, if_pos h2, hq]
        simpa using ih acc hacc
      · have hq : qualifies (pyStrip l) = true := by
          simp only [qualifies, Bool.and_eq_true, Bool.not_eq_true']
          exact ⟨by simpa using h1, by simpa using h2⟩
        rw [if_neg h1, if_neg h2, hq]
        simp only [if_true]
        by_cases h3 : (acc ++ [splitFirstBar (pyStrip l)]).length ≥ num
        · rw [if_pos h3]
          have hlen : (acc ++ [splitFirstBar (pyStrip l)]).length = num := by
            simp only [List.length_append, List.length_singleton] at h3 ⊢
            omega
          have hsplit : acc ++ splitFirstBar (pyStrip l) ::
              ((rest.map pyStrip).filter qualifies).map splitFirstBar =
              (acc ++ [splitFirstBar (pyStrip l)]) ++
                ((rest.map pyStrip).filter qualifies).map splitFirstBar := by
            simp
          simp only [List.map_cons]
          rw [hsplit, List.take_left' hlen]
        · rw [if_neg h3]
          have hlt : (acc ++ [splitFirstBar (pyStrip l)]).length < num := by
            omega
          rw [ih _ hlt]
          simp

/-- C6 is falsified at `num = 0`: the length check follows the append, so
the first qualifying line is collected even though the claim bounds the
result by `num = 0` pairs. -/
theorem C6_counterexample :
    get_trending_products_parse "A | b" 0 = .ok [("A", "b")]
    ∧ ¬(([("A", "b")] : List (String × String)).length ≤ 0) := by
  exact ⟨rfl, by decide⟩

/-- C6 (amended, `num ≥ 1`): the parser returns the first at-most-`num`
qualifying lines — lines containing `|` that, after stripping, are
non-empty and do not begin with a digit, dash, bullet or asterisk — each
split at its first `|` with both parts whitespace-stripped, and raises
when no line qualifies; every returned list has at most `num` entries. -/
theorem C6_get_trending_products (raw : String) (num : Nat) (hnum : 1 ≤ num) :
    get_trending_products_parse raw num =
      (if specParsed raw = [] then
        Except.error ("No products returned from GROQ. Raw response:\n" ++ raw)
      else Except.ok ((specParsed raw).take num))
    ∧ (∀ l, get_trending_products_parse raw num = .ok l → l.length ≤ num) := by
  have hloop : parseLoop num [] (splitlines raw) = (specParsed raw).take num := by
    simpa [specParsed] using parseLoop_eq num (splitlines raw) []
      (by simp only [List.length_nil]; omega)
  have hmain : get_trending_products_parse raw num =
      (if specParsed raw = [] then
        Except.error ("No products returned from GROQ. Raw response:\n" ++ raw)
      else Except.ok ((specParsed raw).take num)) := by
    simp only [get_trending_products_parse, hloop]
    by_cases hs : specParsed raw = []
    · simp [hs]
    · have hne : (specParsed raw).take num ≠ [] := by
        rw [Ne, List.take_eq_nil_iff]
        push_neg
        exact ⟨by omega, hs⟩
      simp [hs, List.isEmpty_iff, hne]
  refine ⟨hmain, ?_⟩
  intro l hl
  rw [hmain] at hl
  by_cases hs : specParsed raw = []
  · rw [if_pos hs] at hl
    cases hl
  · rw [if_neg hs] at hl
    have : (specParsed raw).take num = l := by
      simpa using hl
    rw [← this]
    exact List.length_take_le _ _

/-- A concrete instantiation of C6 (amended): a single well-formed line
parses to its (name, search-term) pair. -/
theorem C6_get_trending_products_witness :
    (1 ≤ 5 : Prop)
    ∧ get_trending_products_parse "Cordless Water Flosser | cordless water flosser" 5 =
        .ok [("Cordless Water Flosser", "cordless water flosser")] := by
  refine ⟨by omega, ?_⟩
  have h := (C6_get_trending_products
    "Cordless Water Flosser | cordless water flosser" 5 (by omega)).1
  rw [h]
  rfl

/-- C8 is falsified when an iteration fails: the 1.2-second sleep sits
inside the `try` after the append, so a failed iteration is followed
immediately by the next product with no sleep in between. -/
theorem C8_counterexample :
    (mainLoop
      (fun p => if p.1 == "a" then .error () else .ok ("f.html", "T", "i.jpg"))
      [("a", "x"), ("b", "y")]).1 =
    [.process "a" "x", .process "b" "y", .sleep (6 / 5)] := by rfl

/-- C8 (amended): the main loop processes the products strictly
sequentially, in order; a fixed 1.2-second sleep follows each successful
iteration (including the last), and a failed iteration is followed by no
sleep; the collected reviews are the successful results in order. -/
theorem C8_main_loop (outcome : String × String → Except Unit (String × String × String))
    (products : List (String × String)) :
    (mainLoop outcome products).1 =
      products.flatMap (fun p =>
        match outcome p with
        | .ok _ => [.process p.1 p.2, .sleep (6 / 5)]
        | .error _ => [.process p.1 p.2])
    ∧ (mainLoop outcome products).2 =
      products.filterMap (fun p => (outcome p).toOption) := by
  induction products with
  | nil => simp [mainLoop]
  | cons p rest ih =>
    cases houtcome : outcome p with
    | ok v => simp [mainLoop, houtcome, ih.1, ih.2, Except.toOption]
    | error e => simp [mainLoop, houtcome, ih.1, ih.2, Except.toOption]

/-- C9 is falsified on its no-file-on-failure clause: a mid-stream
failure after the target file has been opened leaves a newly created
partial file behind while `None` is returned. -/
theorem C9_counterexample :
    download_image (.ok ⟨200, "image/jpeg", [1, 2], false⟩) [] "http://h/a.jpg"
        "product" = (none, [("a.jpg", [1, 2])])
    ∧ ([("a.jpg", [1, 2])] : List (String × List Nat)) ≠ [] := by
  exact ⟨rfl, by decide⟩

/-- C9 (amended): the image downloader never overwrites an existing file —
when the derived target filename already exists it returns the filename
with the directory (hence every existing file's contents) unchanged; an
empty URL, a request exception, or a non-200 status yields `None` with no
file created; a failure while streaming the body, however, returns `None`
but leaves a newly created partial file holding the bytes received. -/
theorem C9_download_image (resp : Except Unit HttpResp)
    (fs : List (String × List Nat)) (url fallback : String) :
    (url = "" → download_image resp fs url fallback = (none, fs))
    ∧ (resp = .error () → download_image resp fs url fallback = (none, fs))
    ∧ (∀ r, resp = .ok r → r.status ≠ 200 →
        download_image resp fs url fallback = (none, fs))
    ∧ (∀ r, resp = .ok r → r.status = 200 → url ≠ "" →
        derivedFname r.contentType url fallback ∈ fs.map Prod.fst →
        download_image resp fs url fallback =
          (some (derivedFname r.contentType url fallback), fs))
    ∧ (∀ r, resp = .ok r → r.status = 200 → url ≠ "" →
        derivedFname r.contentType url fallback ∉ fs.map Prod.fst →
        r.streamOk = false →
        download_image resp fs url fallback =
          (none, (derivedFname r.contentType url fallback, r.body) :: fs)) := by
  refine ⟨?_, ?_, ?_, ?_, ?_⟩
  · intro h
    simp [download_image, h]
  · intro h
    subst h
    by_cases hu : url = "" <;> simp [download_image, hu]
  · intro r hr hs
    subst hr
    by_cases hu : url = "" <;> simp [download_image, hu, hs]
  · intro r hr hs hu hmem
    subst hr
    have hany : fs.any (fun e => e.1 == derivedFname r.contentType url fallback) = true := by
      rw [List.any_eq_true]
      obtain ⟨e, he, heq⟩ := List.mem_map.mp hmem
      exact ⟨e, he, by simp [heq]⟩
    simp [download_image, hu, hs, hany]
  · intro r hr hs hu hmem hstream
    subst hr
    have hany : fs.any (fun e => e.1 == derivedFname r.contentType url fallback) = false := by
      rw [Bool.eq_false_iff, Ne, List.any_eq_true]
      rintro ⟨e, he, heq⟩
      exact hmem (List.mem_map.mpr ⟨e, he, by simpa using heq⟩)
    simp [download_image, hu, hs, hany, hstream]

/-- A concrete instantiation of C9 (amended): a URL whose derived name
already exists is skipped with the directory unchanged; an empty URL and
a bad status return `None` with nothing created. -/
theorem C9_download_image_witness :
    download_image (.ok ⟨200, "image/jpeg", [1, 2, 3], true⟩) [("a.jpg", [9])]
        "http://h/a.jpg" "product" = (some "a.jpg", [("a.jpg", [9])])
    ∧ download_image (.ok ⟨200, "image/jpeg", [1], true⟩) [] "" "product" = (none, [])
    ∧ download_image (.ok ⟨404, "", [], true⟩) [] "http://h/a.jpg" "product" =
        (none, []) := by
  refine ⟨?_, ?_, ?_⟩
  · exact (C9_download_image (.ok ⟨200, "image/jpeg", [1, 2, 3], true⟩) [("a.jpg", [9])]
      "http://h/a.jpg" "product").2.2.2.1 ⟨200, "image/jpeg", [1, 2, 3], true⟩ rfl rfl
      (by decide) (by decide)
  · exact (C9_download_image (.ok ⟨200, "image/jpeg", [1], true⟩) [] "" "product").1 rfl
  · exact (C9_download_image (.ok ⟨404, "", [], true⟩) [] "http://h/a.jpg"
      "product").2.2.1 ⟨404, "", [], true⟩ rfl (by decide)

theorem searchLink_startsWith_http (st tag : String) :
    strStartsWith (searchLink st tag) "http" = true := rfl

theorem searchLink_ne_empty (st tag : String) : (searchLink st tag != "") = true := rfl

theorem strEndsWith_html (s : String) : strEndsWith (s ++ ".html") ".html" = true := by
  unfold strEndsWith
  rw [String.data_append, List.reverse_append]
  have h : (".html").data.reverse <+: (".html").data.reverse ++ s.data.reverse :=
    List.prefix_append _ _
  exact List.isPrefixOf_iff_prefix.mpr h

theorem renderPage_map_str (env : ReviewEnv) (pn T L : String)
    (img : Option Json) :
    (renderPage env pn (.str T) (.str L) img).map (fun p => p.title) = .ok T
    ∧ (renderPage env pn (.str T) (.str L) img).map (fun p => p.direct_link) =
        .ok L := by
  cases img <;> simp [renderPage, scrape_gate, Except.map, jsonDisplay]

theorem renderPage_nonstr (env : ReviewEnv) (pn : String) (tj lj : Json)
    (img : Option Json) (h : ∀ s, tj ≠ .str s) :
    renderPage env pn tj lj img = .error () := by
  unfold renderPage
  cases hg : scrape_gate env lj img with
  | error e => rfl
  | ok iu =>
    cases tj
    case str s => exact absurd rfl (h s)
    all_goals rfl

theorem renderPage_ok (env : ReviewEnv) (pn T L : String) (img : Option Json) :
    ∀ p, renderPage env pn (.str T) (.str L) img = .ok p →
      p.title = T ∧ p.direct_link = L
      ∧ p.html = pageHtml T env.today p.review_image_src p.content L := by
  intro p hp
  simp only [renderPage] at hp
  repeat' split at hp
  all_goals cases hp
  all_goals exact ⟨rfl, rfl, rfl⟩

theorem renderPage_ok_fields (env : ReviewEnv) (pn : String) (tj lj : Json)
    (img : Option Json) : ∀ p, renderPage env pn tj lj img = .ok p →
      (env.groq = .error () → p.content = fallbackReview p.direct_link)
      ∧ strEndsWith p.filename ".html" = true := by
  intro p hp
  unfold renderPage at hp
  cases hg : scrape_gate env lj img with
  | error e =>
    rw [hg] at hp
    cases hp
  | ok iu =>
    rw [hg] at hp
    cases tj with
    | str t =>
      cases hp
      refine ⟨fun h => ?_, strEndsWith_html _⟩
      simp [h]
    | null => cases hp
    | num n => cases hp
    | bool b => cases hp
    | arr l => cases hp
    | obj f => cases hp

theorem generate_review_ok_shape (env : ReviewEnv) (pn st : String) :
    ∀ p, generate_review env pn st = .ok p →
      ∃ tj lj img, renderPage env pn tj lj img = .ok p := by
  intro p hp
  simp only [generate_review] at hp
  repeat' split at hp
  all_goals first
    | exact ⟨_, _, _, hp⟩
    | cases hp

/-- C2 is falsified on the image clause: when the product-API call fails
but the best-effort scrape of the (http-prefixed) fallback search link
finds an image, the page uses that image, not a placeholder. -/
theorem C2_counterexample :
    (generate_review envScraped "Cool Gadget" "cool gadget").map
        (fun p => p.review_image_src) = .ok "images/pic.jpg"
    ∧ "images/pic.jpg" ≠ "images/placeholder-no-image.png"
    ∧ "images/pic.jpg" ≠ placeholder_url := by
  refine ⟨rfl, by decide, by decide⟩

/-- C2 (amended): on a product-API failure the title defaults to the
suggested product name and the purchase link to the affiliate-tagged
Amazon search URL, with the image defaulting to a placeholder (the local
placeholder file when available, else the remote placeholder URL)
provided the best-effort scrape of the purchase link yields no image; on
a review-copy failure the page body is the fixed fallback review
containing the purchase link; a malformed (non-dict-shaped) response
raises out of the unguarded items extraction and no page is produced; a
raise inside the guarded parse block keeps the defaults for the values
not yet assigned (an error in the title chain leaves both the default
title and the default link even when a detail-page URL is present); when
the title chain resolves to a string and the link value is a string, each
is taken from its own field chain; a non-string resolved title raises in
`slugify` and no page is produced; and every produced page's filename
ends in ".html". -/
theorem C2_generate_review (env : ReviewEnv) (pname sterm : String) :
    (env.pa = .error () →
      (generate_review env pname sterm).map (fun p => p.title) = .ok pname
      ∧ (generate_review env pname sterm).map (fun p => p.direct_link) =
          .ok (searchLink sterm env.affiliate_tag)
      ∧ (env.scrape = none →
          (generate_review env pname sterm).map (fun p => p.review_image_src) =
            .ok (if env.placeholderOk then "images/placeholder-no-image.png"
                 else placeholder_url)))
    ∧ (env.groq = .error () →
        (generate_review env pname sterm).map (fun p => p.content) =
          (generate_review env pname sterm).map
            (fun p => fallbackReview p.direct_link))
    ∧ (∀ j, env.pa = .ok j → j.truthy = true → itemsOfE j = .error () →
        generate_review env pname sterm = .error ())
    ∧ (∀ j it, env.pa = .ok j → j.truthy = true → itemsOfE j = .ok (some it) →
        it.truthy = true → titleChainE it pname = .error () →
        (generate_review env pname sterm).map (fun p => p.title) = .ok pname
        ∧ (generate_review env pname sterm).map (fun p => p.direct_link) =
            .ok (searchLink sterm env.affiliate_tag))
    ∧ (∀ j it T L, env.pa = .ok j → j.truthy = true → itemsOfE j = .ok (some it) →
        it.truthy = true → titleChainE it pname = .ok (.str T) →
        linkJsonOf it sterm env.affiliate_tag = .str L →
        (generate_review env pname sterm).map (fun p => p.title) = .ok T
        ∧ (generate_review env pname sterm).map (fun p => p.direct_link) = .ok L)
    ∧ (∀ j it tj, env.pa = .ok j → j.truthy = true → itemsOfE j = .ok (some it) →
        it.truthy = true → titleChainE it pname = .ok tj → (∀ s, tj ≠ .str s) →
        generate_review env pname sterm = .error ())
    ∧ (∀ p, generate_review env pname sterm = .ok p →
        strEndsWith p.filename ".html" = true) := by
  refine ⟨?_, ?_, ?_, ?_, ?_, ?_, ?_⟩
  · intro h
    have hred : generate_review env pname sterm =
        renderPage env pname (.str pname)
          (.str (searchLink sterm env.affiliate_tag)) none := by
      simp [generate_review, h]
    refine ⟨?_, ?_, ?_⟩
    · rw [hred]
      exact (renderPage_map_str env pname pname
        (searchLink sterm env.affiliate_tag) none).1
    · rw [hred]
      exact (renderPage_map_str env pname pname
        (searchLink sterm env.affiliate_tag) none).2
    · intro hs
      rw [hred]
      by_cases hp : env.placeholderOk <;>
        simp [renderPage, scrape_gate, hs, hp, searchLink_startsWith_http,
          searchLink_ne_empty, Except.map]
  · intro h
    cases hgr : generate_review env pname sterm with
    | error e => simp [Except.map]
    | ok p =>
      obtain ⟨tj, lj, img, hr⟩ := generate_review_ok_shape env pname sterm p hgr
      have hc := (renderPage_ok_fields env pname tj lj img p hr).1 h
      simp [Except.map, hc]
  · intro j hpa hj hitems
    simp [generate_review, hpa, hj, hitems]
  · intro j it hpa hj hitems htr htitle
    have hred : generate_review env pname sterm =
        renderPage env pname (.str pname)
          (.str (searchLink sterm env.affiliate_tag)) none := by
      simp [generate_review, hpa, hj, hitems, htr, htitle]
    rw [hred]
    exact renderPage_map_str env pname pname
      (searchLink sterm env.affiliate_tag) none
  · intro j it T L hpa hj hitems htr htitle hlink
    cases himg : imageChainE it with
    | error e =>
      have hred : generate_review env pname sterm =
          renderPage env pname (.str T) (.str L) none := by
        simp [generate_review, hpa, hj, hitems, htr, htitle, himg, hlink]
      rw [hred]
      exact renderPage_map_str env pname T L none
    | ok c =>
      have hred : generate_review env pname sterm =
          renderPage env pname (.str T) (.str L) c := by
        simp [generate_review, hpa, hj, hitems, htr, htitle, himg, hlink]
      rw [hred]
      exact renderPage_map_str env pname T L c
  · intro j it tj hpa hj hitems htr htitle hnostr
    cases himg : imageChainE it with
    | error e =>
      have hred : generate_review env pname sterm =
          renderPage env pname tj
            (linkJsonOf it sterm env.affiliate_tag) none := by
        simp [generate_review, hpa, hj, hitems, htr, htitle, himg]
      rw [hred]
      exact renderPage_nonstr env pname tj _ none hnostr
    | ok c =>
      have hred : generate_review env pname sterm =
          renderPage env pname tj
            (linkJsonOf it sterm env.affiliate_tag) c := by
        simp [generate_review, hpa, hj, hitems, htr, htitle, himg]
      rw [hred]
      exact renderPage_nonstr env pname tj _ c hnostr
  · intro p hp
    obtain ⟨tj, lj, img, hr⟩ := generate_review_ok_shape env pname sterm p hp
    exact (renderPage_ok_fields env pname tj lj img p hr).2

/-- A concrete instantiation of C2 (amended): with every outbound call
failing, the page still gets produced from the product name, the tagged
search link, the local placeholder and the fallback body. -/
theorem C2_generate_review_witness :
    (generate_review envAllFail "Cool Gadget" "cool gadget").map (fun p => p.title) =
        .ok "Cool Gadget"
    ∧ (generate_review envAllFail "Cool Gadget" "cool gadget").map
        (fun p => p.direct_link) = .ok (searchLink "cool gadget" "snapxacc-20")
    ∧ (generate_review envAllFail "Cool Gadget" "cool gadget").map
        (fun p => p.review_image_src) = .ok "images/placeholder-no-image.png"
    ∧ (generate_review envAllFail "Cool Gadget" "cool gadget").map
        (fun p => p.content) =
      (generate_review envAllFail "Cool Gadget" "cool gadget").map
        (fun p => fallbackReview p.direct_link) := by
  have h := C2_generate_review envAllFail "Cool Gadget" "cool gadget"
  refine ⟨(h.1 rfl).1, (h.1 rfl).2.1, ?_, h.2.1 rfl⟩
  simpa [envAllFail] using (h.1 rfl).2.2 rfl

theorem infix_shift {α : Type} {l x : List α} (a : List α) (h : l <:+: x) :
    l <:+: a ++ x :=
  h.trans (List.suffix_append a x).isInfix

theorem infix_self_append {α : Type} (l r : List α) : l <:+: l ++ r :=
  (List.prefix_append l r).isInfix

theorem titleTag_in_pageHtml (t today src content link : String) :
    (titleTag t).data <:+: (pageHtml t today src content link).data := by
  simp only [pageHtml, String.data_append, List.append_assoc]
  apply infix_shift
  exact infix_self_append _ _

theorem h1Tag_in_pageHtml (t today src content link : String) :
    (h1Tag t).data <:+: (pageHtml t today src content link).data := by
  simp only [pageHtml, String.data_append, List.append_assoc]
  apply infix_shift
  apply infix_shift
  apply infix_shift
  exact infix_self_append _ _

theorem anchorPre_in_priceAnchor (link : String) :
    ("<a href=\"" ++ link ++ "\"").data <+: (priceAnchor link).data := by
  refine ⟨(" class=\"btn\" rel=\"nofollow\">Check Price on Amazon →</a>").data, ?_⟩
  simp only [priceAnchor, String.data_append, List.append_assoc]
  rfl

theorem priceAnchor_in_pageHtml (t today src content link : String) :
    (priceAnchor link).data <:+: (pageHtml t today src content link).data := by
  simp only [pageHtml, String.data_append, List.append_assoc]
  repeat
    first
    | exact infix_self_append _ _
    | apply infix_shift

/-- C7: when the product-API response resolves (without a parse error) to
a string title `T` and a string link `L`, a page is produced and it
contains `T` in its `<title>` element and its `<h1>` heading and an
anchor whose href is `L`, and the homepage card built for the product
links to `reviews/<filename>`. -/
theorem C7_rendered_page (env : ReviewEnv) (pname sterm : String) (j it : Json)
    (T L : String) (hpa : env.pa = .ok j) (hj : j.truthy = true)
    (hit : itemsOfE j = .ok (some it)) (htr : it.truthy = true)
    (hT : titleChainE it pname = .ok (.str T))
    (hL : linkJsonOf it sterm env.affiliate_tag = .str L) :
    (generate_review env pname sterm).map (fun p => p.title) = .ok T
    ∧ ∀ p, generate_review env pname sterm = .ok p →
        (titleTag T).data <:+: p.html.data
        ∧ (h1Tag T).data <:+: p.html.data
        ∧ ("<a href=\"" ++ L ++ "\"").data <:+: p.html.data
        ∧ ∀ img, Node.elem "a" [("href", "reviews/" ++ p.filename), ("class", "btn")]
            [.text "Read Full Review"] ∈ (card p.filename T img).children := by
  constructor
  · cases himg : imageChainE it with
    | error e =>
      have hred : generate_review env pname sterm =
          renderPage env pname (.str T) (.str L) none := by
        simp [generate_review, hpa, hj, hit, htr, hT, hL, himg]
      rw [hred]
      exact (renderPage_map_str env pname T L none).1
    | ok c =>
      have hred : generate_review env pname sterm =
          renderPage env pname (.str T) (.str L) c := by
        simp [generate_review, hpa, hj, hit, htr, hT, hL, himg]
      rw [hred]
      exact (renderPage_map_str env pname T L c).1
  · intro p hp
    simp [generate_review, hpa, hj, hit, htr, hT, hL] at hp
    split at hp
    all_goals
      obtain ⟨hT2, hL2, hhtml⟩ := renderPage_ok env pname T L _ p hp
    all_goals rw [hhtml]
    all_goals exact ⟨titleTag_in_pageHtml T _ _ _ _, h1Tag_in_pageHtml T _ _ _ _,
      (anchorPre_in_priceAnchor L).isInfix.trans (priceAnchor_in_pageHtml T _ _ _ L),
      fun img2 => by simp [card, Node.children]⟩

/-- A concrete instantiation of C7: a mocked response resolving to
"Great Thing" and its detail link yields a page containing both. -/
theorem C7_rendered_page_witness :
    (generate_review env7 "P" "s").map (fun p => p.title) = .ok "Great Thing"
    ∧ (generate_review env7 "P" "s").map
        (fun p => decide ((titleTag "Great Thing").data <:+: p.html.data)) = .ok true
    ∧ (generate_review env7 "P" "s").map
        (fun p => decide ((h1Tag "Great Thing").data <:+: p.html.data)) = .ok true
    ∧ (generate_review env7 "P" "s").map
        (fun p => decide (("<a href=\"" ++ "https://amazon.com/dp/B01" ++ "\"").data
          <:+: p.html.data)) = .ok true := by
  have h := C7_rendered_page env7 "P" "s" api7 item7 "Great Thing"
    "https://amazon.com/dp/B01" rfl rfl rfl rfl rfl rfl
  refine ⟨h.1, ?_, ?_, ?_⟩
  · cases hgr : generate_review env7 "P" "s" with
    | error e =>
      rw [hgr] at h
      exact absurd h.1 (by simp [Except.map])
    | ok p =>
      simp only [hgr, Except.map, Except.ok.injEq]
      exact decide_eq_true (h.2 p hgr).1
  · cases hgr : generate_review env7 "P" "s" with
    | error e =>
      rw [hgr] at h
      exact absurd h.1 (by simp [Except.map])
    | ok p =>
      simp only [hgr, Except.map, Except.ok.injEq]
      exact decide_eq_true (h.2 p hgr).2.1
  · cases hgr : generate_review env7 "P" "s" with
    | error e =>
      rw [hgr] at h
      exact absurd h.1 (by simp [Except.map])
    | ok p =>
      simp only [hgr, Except.map, Except.ok.injEq]
      exact decide_eq_true (h.2 p hgr).2.2.1

mutual

theorem updateNode_found_eq (f : List Node → List Node) :
    ∀ n : Node, (updateNode f n).2 = hasRevDiv n
  | .text s => by simp [updateNode, hasRevDiv]
  | .elem t a cs => by
    by_cases hd : isReviewsDiv (.elem t a cs) = true
    · simp [updateNode, hasRevDiv, hd]
    · simp [updateNode, hasRevDiv, hd, updateNodes_found_eq f cs]

theorem updateNodes_found_eq (f : List Node → List Node) :
    ∀ l : List Node, (updateNodes f l).2 = hasRevDivList l
  | [] => by simp [updateNodes, hasRevDivList]
  | n :: rest => by
    by_cases hn : (updateNode f n).2 = true
    · simp [updateNodes, hasRevDivList, hn, ← updateNode_found_eq f n]
    · have hb : (updateNode f n).2 = false := by simpa using hn
      simp [updateNodes, hasRevDivList, hb, ← updateNode_found_eq f n,
        updateNodes_found_eq f rest]

end

mutual

theorem updateNode_sound (f : List Node → List Node) :
    ∀ n : Node, (updateNode f n).2 = true → UpdatedFirst f n (updateNode f n).1
  | .text s => by simp [updateNode]
  | .elem t a cs => by
    intro h
    by_cases hd : isReviewsDiv (.elem t a cs) = true
    · simp only [updateNode, hd, if_true]
      exact UpdatedFirst.here t a cs hd
    · have hdf : isReviewsDiv (.elem t a cs) = false := by simpa using hd
      have h2 : (updateNodes f cs).2 = true := by
        simpa [updateNode, hdf] using h
      simp only [updateNode, hdf, Bool.false_eq_true, if_false]
      exact UpdatedFirst.deeper t a cs _ hdf (updateNodes_sound f cs h2)

theorem updateNodes_sound (f : List Node → List Node) :
    ∀ l : List Node, (updateNodes f l).2 = true →
      UpdatedFirstList f l (updateNodes f l).1
  | [] => by simp [updateNodes]
  | n :: rest => by
    intro h
    by_cases hn : (updateNode f n).2 = true
    · simp only [updateNodes, hn, if_true]
      exact UpdatedFirstList.head n _ rest (updateNode_sound f n hn)
    · have hb : (updateNode f n).2 = false := by simpa using hn
      have hr : (updateNodes f rest).2 = true := by
        simpa [updateNodes, hb] using h
      simp only [updateNodes, hb, Bool.false_eq_true, if_false]
      refine UpdatedFirstList.tail n rest _ ?_ (updateNodes_sound f rest hr)
      rw [← updateNode_found_eq f n]
      exact hb

end

theorem insertCards_eq (rs : List (String × String × String))
    (children : List Node) :
    insertCards rs children =
      rs.map (fun r => card r.1 r.2.1 r.2.2) ++ children := by
  induction rs with
  | nil => simp [insertCards]
  | cons r rest ih =>
    unfold insertCards at ih ⊢
    rw [List.reverse_cons, List.foldl_append]
    simp [ih]

/-- C10: the homepage update is all-or-nothing and prepend-only — a
missing index.html or a document without a `<div id="reviews">` is left
untouched; otherwise exactly the first reviews div (in document order)
gets one new card per review prepended, in the order of `new_reviews`,
with every previously existing child still present after them and the
rest of the document unchanged. -/
theorem C10_update_homepage (rs : List (String × String × String)) :
    update_homepage none rs = none
    ∧ (∀ doc : Node, hasRevDiv doc = false → update_homepage (some doc) rs = some doc)
    ∧ (∀ doc doc' : Node, hasRevDiv doc = true →
        update_homepage (some doc) rs = some doc' →
        UpdatedFirst (fun cs => rs.map (fun r => card r.1 r.2.1 r.2.2) ++ cs)
          doc doc')
    ∧ (∀ children, insertCards rs children =
        rs.map (fun r => card r.1 r.2.1 r.2.2) ++ children) := by
  have hfun : insertCards rs = fun cs => rs.map (fun r => card r.1 r.2.1 r.2.2) ++ cs := by
    funext cs
    exact insertCards_eq rs cs
  refine ⟨rfl, ?_, ?_, fun c => insertCards_eq rs c⟩
  · intro doc hnd
    have : (updateNode (insertCards rs) doc).2 = false := by
      rw [updateNode_found_eq]
      exact hnd
    simp [update_homepage, this]
  · intro doc doc' hd hupd
    have hfound : (updateNode (insertCards rs) doc).2 = true := by
      rw [updateNode_found_eq]
      exact hd
    have hddoc : doc' = (updateNode (insertCards rs) doc).1 := by
      simp [update_homepage, hfound] at hupd
      exact hupd.symm
    rw [hddoc, ← hfun]
    exact updateNode_sound (insertCards rs) doc hfound

/-- A concrete instantiation of C10: two new reviews end up as two cards
prepended, in order, before the grid's old child. -/
theorem C10_update_homepage_witness :
    hasRevDiv doc10 = true
    ∧ UpdatedFirst
        (fun cs => ([("f1.html", "N1", "i1"), ("f2.html", "N2", "i2")]).map
          (fun r => card r.1 r.2.1 r.2.2) ++ cs) doc10 doc10' := by
  have h1 : hasRevDiv doc10 = true := by
    simp [doc10, hasRevDiv, hasRevDivList, isReviewsDiv]
  have h2 : update_homepage (some doc10)
      [("f1.html", "N1", "i1"), ("f2.html", "N2", "i2")] = some doc10' := by
    simp [doc10, doc10', update_homepage, updateNode, updateNodes, isReviewsDiv,
      insertCards, card]
  exact ⟨h1, (C10_update_homepage
    [("f1.html", "N1", "i1"), ("f2.html", "N2", "i2")]).2.2.1 doc10 doc10' h1 h2⟩

/-- C1: the request signature is the hex HMAC-SHA256, under the signing key
obtained by four chained HMAC-SHA256 applications (AWS4+secret over the
datestamp, then region, service, "aws4_request"), of the string-to-sign
consisting of "AWS4-HMAC-SHA256", the timestamp, the credential scope and
the hex SHA-256 of the canonical request, for every secret key, datestamp
and payload. -/
theorem C1_request_signing (secret_key datestamp amz_date payload_json : String) :
    pa_signature secret_key datestamp amz_date payload_json =
      bytesToHex (hmacSha256 (specSigningKey secret_key datestamp)
        (utf8 (specStringToSign amz_date datestamp payload_json))) := by
  have hkey : get_signature_key secret_key datestamp PA_REGION PA_SERVICE =
      specSigningKey secret_key datestamp := rfl
  have hsts : string_to_sign amz_date datestamp payload_json =
      specStringToSign amz_date datestamp payload_json := by
    simp only [string_to_sign, specStringToSign, joinNewline, credential_scope,
      canonical_request, canonical_headers, PA_HOST, PA_REGION, PA_SERVICE,
      String.append_assoc]
  rw [pa_signature, hkey, hsts]

end Claims
